import Mathlib

/-!
Verification development for the ZooKeeper coordination client layer
(src/Common/ZooKeeper/ZooKeeper.cpp).

The protocol engine (Coordination::ZooKeeper / TestKeeper) is an external
collaborator: every synchronous wrapper submits an asynchronous request and
waits on a future.  We embed this by making each wrapper a pure function of
an `EngineOutcome`: the observable outcome of the asynchronous submission
(submission raised, future not ready within the operation timeout, or a
typed response).  Exceptions are embedded with `Except`; the exception type
distinguishes KeeperException (a Coordination exception), the structured
KeeperMultiException, and a DB::Exception with code LOGICAL_ERROR.
-/

namespace ZK

/-- Result codes of the coordination protocol (Coordination::Error).
Only the codes the claims mention are listed; ZRUNTIMEINCONSISTENCY stands
in for a generic fatal code in tests. -/
inductive KError where
  | ZOK
  | ZNONODE
  | ZNODEEXISTS
  | ZNOCHILDRENFOREPHEMERALS
  | ZBADVERSION
  | ZNOTEMPTY
  | ZOPERATIONTIMEOUT
  | ZSESSIONEXPIRED
  | ZCONNECTIONLOSS
  | ZBADARGUMENTS
  | ZRUNTIMEINCONSISTENCY
  deriving DecidableEq, Repr

/-- Modelled from the spec: Coordination::isUserError is defined in the
protocol layer (IKeeper), which is not part of this snippet.  The spec's
error taxonomy lists the recoverable/user errors as: node missing, node
already exists, version mismatch, node not empty, and the
ephemeral-with-children violation. -/
def isUserError : KError → Bool
  | .ZNONODE => true
  | .ZBADVERSION => true
  | .ZNOCHILDRENFOREPHEMERALS => true
  | .ZNODEEXISTS => true
  | .ZNOTEMPTY => true
  | _ => false

/-- Exceptions thrown by the client layer.  `keeper` is
zkutil::KeeperException (which is a Coordination::Exception); `keeperMulti`
is KeeperMultiException carrying the index of the first failed
sub-operation and its path; `logicalError` is DB::Exception with error
code LOGICAL_ERROR (a fatal internal-consistency error, not a
Coordination::Exception). -/
inductive Exc where
  | keeper (code : KError) (path : String)
  | keeperMulti (code : KError) (failedOpIndex : Nat) (failedPath : String)
  | logicalError (msg : String)
  deriving DecidableEq, Repr

/-- Whether an exception is a Coordination::Exception (both KeeperException
and KeeperMultiException derive from it; DB::Exception does not). -/
def Exc.isCoordination : Exc → Bool
  | .keeper _ _ => true
  | .keeperMulti _ _ _ => true
  | .logicalError _ => false

/-- CreateMode constants (source lines 37-40). -/
def CreateMode.Persistent : Int := 0
def CreateMode.Ephemeral : Int := 1
def CreateMode.PersistentSequential : Int := 2
def CreateMode.EphemeralSequential : Int := 3

/-- Operation requests composed into multi-operation lists (the tagged
variants built by makeCreateRequest / makeRemoveRequest / makeSetRequest /
makeCheckRequest). -/
inductive Request where
  | create (path data : String) (is_ephemeral is_sequential : Bool)
  | remove (path : String) (version : Int)
  | set (path data : String) (version : Int)
  | chk (path : String) (version : Int)
  deriving DecidableEq, Repr

/-- The path carried by a request (Coordination::Request::getPath). -/
def Request.getPath : Request → String
  | .create p _ _ _ => p
  | .remove p _ => p
  | .set p _ _ => p
  | .chk p _ => p

/-- makeCreateRequest (source lines 1188-1196): the mode encodes two bits,
ephemeral and sequential. -/
def makeCreateRequest (path data : String) (create_mode : Int) : Request :=
  .create path data
    (create_mode = CreateMode.Ephemeral ∨ create_mode = CreateMode.EphemeralSequential)
    (create_mode = CreateMode.PersistentSequential ∨ create_mode = CreateMode.EphemeralSequential)

/-- makeRemoveRequest (source lines 1198-1204). -/
def makeRemoveRequest (path : String) (version : Int) : Request :=
  .remove path version

/-- makeSetRequest (source lines 1206-1213). -/
def makeSetRequest (path data : String) (version : Int) : Request :=
  .set path data version

/-- makeCheckRequest (source lines 1215-1221). -/
def makeCheckRequest (path : String) (version : Int) : Request :=
  .chk path version

/-- A sub-operation response; only its result code is consulted by the
client layer (responses[index]->error). -/
structure Response where
  error : KError
  deriving DecidableEq, Repr

/-- KeeperMultiException::getFailedOpIndex (source lines 1145-1159):
empty response list is a LOGICAL_ERROR; otherwise the first response with
a non-OK code gives the index; if all responses are OK, a LOGICAL_ERROR is
raised (one message for a non-user-error exception code, another when the
code was a user error but no response failed). -/
def KeeperMultiException.getFailedOpIndex (exception_code : KError)
    (responses : List Response) : Except Exc Nat :=
  if responses.isEmpty then
    .error (.logicalError "Responses for multi transaction is empty")
  else
    match responses.findIdx? (fun r => r.error ≠ .ZOK) with
    | some index => .ok index
    | none =>
      if ¬ isUserError exception_code then
        .error (.logicalError "There are no failed OPs because the code is not a valid response code for that")
      else
        .error (.logicalError "There is no failed OpResult")

/-- KeeperMultiException constructor (source lines 1162-1167): computes the
failed op index and records the path of that request
(getPathForFirstFailedOp, source lines 1170-1173).  A LOGICAL_ERROR from
getFailedOpIndex propagates out of the constructor. -/
def KeeperMultiException.make (exception_code : KError) (requests : List Request)
    (responses : List Response) : Except Exc Exc :=
  match KeeperMultiException.getFailedOpIndex exception_code responses with
  | .error e => .error e
  | .ok index =>
    .ok (.keeperMulti exception_code index ((requests.getD index (.remove "" 0)).getPath))

/-- KeeperMultiException::check (source lines 1175-1185): OK returns;
a user-error code raises the structured KeeperMultiException; any other
non-OK code raises a plain KeeperException with just the code. -/
def KeeperMultiException.check (exception_code : KError) (requests : List Request)
    (responses : List Response) : Except Exc Unit :=
  if exception_code = .ZOK then .ok ()
  else if isUserError exception_code then
    match KeeperMultiException.make exception_code requests responses with
    | .error e => .error e
    | .ok e => .error e
  else .error (.keeper exception_code "")

/-!
The synchronous bridge.  Each xxxImpl function submits the request through
an asyncTryXxxNoThrow constructor and waits up to operation_timeout_ms on
the future.  `EngineOutcome` is the observable outcome of that submission:
`thrown` (the submission itself raised a Coordination exception, e.g. on an
expired session), `timedOut` (the future was not ready within the
deadline), or `ready` with the typed response. -/
inductive EngineOutcome (α : Type) where
  | thrown (code : KError)
  | timedOut
  | ready (resp : α)

/-- Result of an xxxImpl call: the returned code, the successful payload if
any, and whether impl->finalize was called (the session was
force-terminated because the deadline elapsed). -/
structure ImplRes (α : Type) where
  code : KError
  payload : Option α
  finalized : Bool
  deriving DecidableEq, Repr

/-- Typed responses delivered by the protocol engine.  Stat payloads are
omitted: no claim concerns them. -/
structure CreateResponse where
  error : KError
  path_created : String
  deriving DecidableEq, Repr

structure RemoveResponse where
  error : KError
  deriving DecidableEq, Repr

structure ExistsResponse where
  error : KError
  deriving DecidableEq, Repr

structure GetResponse where
  error : KError
  data : String
  deriving DecidableEq, Repr

structure SetResponse where
  error : KError
  deriving DecidableEq, Repr

structure ListResponse where
  error : KError
  names : List String
  deriving DecidableEq, Repr

structure MultiResponse where
  error : KError
  responses : List Response
  deriving DecidableEq, Repr

/-- ZooKeeper::createImpl (source lines 375-392): on timeout finalize the
session and return ZOPERATIONTIMEOUT; otherwise return the response code,
extracting path_created on success. -/
def createImpl (out : EngineOutcome CreateResponse) : Except Exc (ImplRes String) :=
  match out with
  | .thrown c => .error (.keeper c "")
  | .timedOut => .ok ⟨.ZOPERATIONTIMEOUT, none, true⟩
  | .ready r =>
    .ok ⟨r.error, if r.error = .ZOK then some r.path_created else none, false⟩

/-- ZooKeeper::removeImpl (source lines 444-459). -/
def removeImpl (out : EngineOutcome RemoveResponse) : Except Exc (ImplRes Unit) :=
  match out with
  | .thrown c => .error (.keeper c "")
  | .timedOut => .ok ⟨.ZOPERATIONTIMEOUT, none, true⟩
  | .ready r => .ok ⟨r.error, none, false⟩

/-- ZooKeeper::existsImpl (source lines 477-495). -/
def existsImpl (out : EngineOutcome ExistsResponse) : Except Exc (ImplRes Unit) :=
  match out with
  | .thrown c => .error (.keeper c "")
  | .timedOut => .ok ⟨.ZOPERATIONTIMEOUT, none, true⟩
  | .ready r => .ok ⟨r.error, none, false⟩

/-- ZooKeeper::getImpl (source lines 511-532). -/
def getImpl (out : EngineOutcome GetResponse) : Except Exc (ImplRes String) :=
  match out with
  | .thrown c => .error (.keeper c "")
  | .timedOut => .ok ⟨.ZOPERATIONTIMEOUT, none, true⟩
  | .ready r =>
    .ok ⟨r.error, if r.error = .ZOK then some r.data else none, false⟩

/-- ZooKeeper::setImpl (source lines 583-602). -/
def setImpl (out : EngineOutcome SetResponse) : Except Exc (ImplRes Unit) :=
  match out with
  | .thrown c => .error (.keeper c "")
  | .timedOut => .ok ⟨.ZOPERATIONTIMEOUT, none, true⟩
  | .ready r => .ok ⟨r.error, none, false⟩

/-- ZooKeeper::getChildrenImpl (source lines 312-335). -/
def getChildrenImpl (out : EngineOutcome ListResponse) : Except Exc (ImplRes (List String)) :=
  match out with
  | .thrown c => .error (.keeper c "")
  | .timedOut => .ok ⟨.ZOPERATIONTIMEOUT, none, true⟩
  | .ready r =>
    .ok ⟨r.error, if r.error = .ZOK then some r.names else none, false⟩

/-- Result of multiImpl: the code, the response list assigned to the
caller-supplied output, whether a request was submitted to the protocol
engine, and whether the session was finalized. -/
structure MultiImplRes where
  code : KError
  responses : List Response
  submitted : Bool
  finalized : Bool
  deriving DecidableEq, Repr

/-- ZooKeeper::multiImpl (source lines 633-652): an empty request list
returns ZOK immediately, with no submission; on timeout finalize the
session and return ZOPERATIONTIMEOUT; otherwise copy out the responses
(whatever the code) and return the code. -/
def multiImpl (requests : List Request) (out : EngineOutcome MultiResponse) :
    Except Exc MultiImplRes :=
  if requests.isEmpty then .ok ⟨.ZOK, [], false, false⟩
  else
    match out with
    | .thrown c => .error (.keeper c "")
    | .timedOut => .ok ⟨.ZOPERATIONTIMEOUT, [], true, true⟩
    | .ready r => .ok ⟨r.error, r.responses, true, false⟩

/-!
Per-operation synchronous wrappers: each try variant layers the fixed
error-classification table over the bridge. -/

/-- ZooKeeper::tryCreate (source lines 401-412): returns the code for ZOK,
ZNONODE, ZNODEEXISTS and ZNOCHILDRENFOREPHEMERALS, raises a
KeeperException carrying the path for every other code. -/
def tryCreate (path : String) (out : EngineOutcome CreateResponse) : Except Exc KError :=
  match createImpl out with
  | .error e => .error e
  | .ok res =>
    if ¬ (res.code = .ZOK ∨ res.code = .ZNONODE ∨ res.code = .ZNODEEXISTS ∨
          res.code = .ZNOCHILDRENFOREPHEMERALS) then
      .error (.keeper res.code path)
    else .ok res.code

/-- ZooKeeper::tryRemove (source lines 466-475): returns the code for ZOK,
ZNONODE, ZBADVERSION and ZNOTEMPTY, raises otherwise. -/
def tryRemove (path : String) (out : EngineOutcome RemoveResponse) : Except Exc KError :=
  match removeImpl out with
  | .error e => .error e
  | .ok res =>
    if ¬ (res.code = .ZOK ∨ res.code = .ZNONODE ∨ res.code = .ZBADVERSION ∨
          res.code = .ZNOTEMPTY) then
      .error (.keeper res.code path)
    else .ok res.code

/-- ZooKeeper::trySet (source lines 620-630): returns the code for ZOK,
ZNONODE and ZBADVERSION, raises otherwise. -/
def trySet (path : String) (out : EngineOutcome SetResponse) : Except Exc KError :=
  match setImpl out with
  | .error e => .error e
  | .ok res =>
    if ¬ (res.code = .ZOK ∨ res.code = .ZNONODE ∨ res.code = .ZBADVERSION) then
      .error (.keeper res.code path)
    else .ok res.code

/-- ZooKeeper::existsWatch (source lines 502-509): raises unless the code
is ZOK or ZNONODE; returns whether the node exists. -/
def existsWatch (path : String) (out : EngineOutcome ExistsResponse) : Except Exc Bool :=
  match existsImpl out with
  | .error e => .error e
  | .ok res =>
    if ¬ (res.code = .ZOK ∨ res.code = .ZNONODE) then
      .error (.keeper res.code path)
    else .ok (res.code ≠ .ZNONODE)

/-- ZooKeeper::tryGetWatch (source lines 565-581): raises unless the code
is ZOK or ZNONODE; reports the code through return_code and returns
whether data was read. -/
def tryGetWatch (path : String) (out : EngineOutcome GetResponse) :
    Except Exc (Bool × KError) :=
  match getImpl out with
  | .error e => .error e
  | .ok res =>
    if ¬ (res.code = .ZOK ∨ res.code = .ZNONODE) then
      .error (.keeper res.code path)
    else .ok (res.code = .ZOK, res.code)

/-- ZooKeeper::tryGetChildren (source lines 353-362): raises unless the
code is ZOK or ZNONODE; returns the code and the listed names. -/
def tryGetChildren (path : String) (out : EngineOutcome ListResponse) :
    Except Exc (KError × List String) :=
  match getChildrenImpl out with
  | .error e => .error e
  | .ok res =>
    if ¬ (res.code = .ZOK ∨ res.code = .ZNONODE) then
      .error (.keeper res.code path)
    else .ok (res.code, (res.payload.getD []))

/-- ZooKeeper::multi (source lines 654-660): run multiImpl and route the
code through KeeperMultiException::check, returning the responses when the
whole transaction was applied. -/
def multi (requests : List Request) (out : EngineOutcome MultiResponse) :
    Except Exc (List Response) :=
  match multiImpl requests out with
  | .error e => .error e
  | .ok res =>
    match KeeperMultiException.check res.code requests res.responses with
    | .error e => .error e
    | .ok _ => .ok res.responses

/-- ZooKeeper::tryMulti (source lines 662-668): returns the code when it is
ZOK or a user error, raises a KeeperException (code only) otherwise. -/
def tryMulti (requests : List Request) (out : EngineOutcome MultiResponse) :
    Except Exc (KError × List Response) :=
  match multiImpl requests out with
  | .error e => .error e
  | .ok res =>
    if res.code ≠ .ZOK ∧ ¬ isUserError res.code then
      .error (.keeper res.code "")
    else .ok (res.code, res.responses)

/-- ZooKeeper::tryMultiNoThrow (source lines 1120-1130): delegates to
multiImpl and converts any Coordination::Exception into its code; a
DB::Exception would not be caught. -/
def tryMultiNoThrow (requests : List Request) (out : EngineOutcome MultiResponse) :
    Except Exc KError :=
  match multiImpl requests out with
  | .ok res => .ok res.code
  | .error (.keeper c _) => .ok c
  | .error (.keeperMulti c _ _) => .ok c
  | .error (.logicalError m) => .error (.logicalError m)

/-!
Host selector. -/

/-- Modelled from the spec: the ShuffleHost record is declared in the
header, which is not part of this snippet.  A shuffled host is a
configured endpoint annotated with a load-balancing priority and a random
tie-breaker. -/
structure ShuffleHost where
  host : String
  priority : Nat
  random : Nat
  deriving DecidableEq, Repr

/-- Modelled from the spec: the ShuffleHost comparator is declared in the
header, which is not part of this snippet; the final order sorts by
priority then by the random value.  This is the total preorder
corresponding to the strict lexicographic comparison handed to std::sort. -/
def ShuffleHost.leB (l r : ShuffleHost) : Bool :=
  decide (l.priority < r.priority ∨ (l.priority = r.priority ∧ l.random ≤ r.random))

/-- Priority assigned to the host at one index: the value of the
load-balancing priority function when one is configured, and the default
priority 0 of the ShuffleHost record otherwise (get_priority may be an
empty std::function). -/
def hostPriority (get_priority : Option (Nat → Nat)) (i : Nat) : Nat :=
  match get_priority with
  | some f => f i
  | none => 0

/-- ZooKeeper::shuffleHosts (source lines 158-180): the loop annotates each
configured host with its priority and an independent random value
(randomize), then std::sort orders the annotated list with the ShuffleHost
comparator. -/
def shuffleHosts (hosts : List String) (get_priority : Option (Nat → Nat))
    (rand : Nat → Nat) : List ShuffleHost :=
  (hosts.enum.map (fun ih =>
    ShuffleHost.mk ih.2 (hostPriority get_priority ih.1) (rand ih.1))).mergeSort
    ShuffleHost.leB

/-!
Session bootstrap: the host-resolution loop of ZooKeeper::init. -/

/-- Outcome of constructing a socket address for one host (the DNS lookup
inside the loop of ZooKeeper::init). -/
inductive ResolveOutcome where
  | resolved
  | hostNotFound
  | dnsErr
  deriving DecidableEq, Repr

/-- The secure-transport marker handling of the resolution loop: a host
starting with the marker has it erased before DNS resolution. -/
def stripSecure (host : String) : String :=
  if host.startsWith "secure://" then host.drop 9 else host

/-- One step of the resolution loop in ZooKeeper::init (source lines
74-98): strip a leading secure-transport marker, then resolve; a resolved
host is appended to the node list, a host-not-found error drops the host,
and a DNS error drops the host and records that DNS failed. -/
def resolveStep (resolve : String → ResolveOutcome)
    (acc : List (String × Bool) × Bool) (host : String) : List (String × Bool) × Bool :=
  let secure := host.startsWith "secure://"
  let host_string := stripSecure host
  match resolve host_string with
  | .resolved => (acc.1 ++ [(host_string, secure)], acc.2)
  | .hostNotFound => acc
  | .dnsErr => (acc.1, true)

/-- The resolution phase of ZooKeeper::init (source lines 73-107): run the
loop over the shuffled hosts; if no host resolved, raise ZCONNECTIONLOSS
when a DNS error was seen (a hardware error, not a user error) and
ZBADARGUMENTS otherwise.  The second field of the keeper exception holds
the message for message-constructed exceptions. -/
def initNodes (shuffled_hosts : List String) (resolve : String → ResolveOutcome) :
    Except Exc (List (String × Bool)) :=
  let r := shuffled_hosts.foldl (resolveStep resolve) ([], false)
  if r.1.isEmpty then
    if r.2 then
      .error (.keeper .ZCONNECTIONLOSS "Cannot resolve any of provided ZooKeeper hosts due to DNS error")
    else
      .error (.keeper .ZBADARGUMENTS "Cannot use any of provided ZooKeeper nodes")
  else .ok r.1

/-!
Disappearance waiter. -/

/-- Watch event types (Coordination::Event); only DELETED is consulted by
the waiter. -/
inductive WEvent where
  | created
  | deleted
  | changed
  | child
  deriving DecidableEq, Repr

/-- Observable outcome of one wait slice of ZooKeeper::waitForDisappear:
either the one-second tryWait expired with nothing observed, or the data
read completion fired with a code, or the watch fired.  A wake-up requires
a non-OK read code (the read callback only sets the event for a non-zero
code) or a watch event, so every wake with code ZOK carries a fresh watch
event type; the event-type field is therefore never read stale. -/
inductive WaitOutcome where
  | slice
  | readResult (code : KError)
  | watchFired (code : KError) (typ : WEvent)
  deriving DecidableEq, Repr

/-- ZooKeeper::waitForDisappear (source lines 798-842) over the trace of
per-iteration outcomes; the condition, when present, is evaluated at the
end of each iteration (index k counts evaluations).  Returns some true
when the node is observed gone, some false when the loop exits through the
condition check, and none when the trace is exhausted with the loop still
waiting.  The body: a ZNONODE read code returns true; any other non-zero
code raises with the path; a DELETED watch event returns true; otherwise
the loop continues while the condition is absent or evaluates to false. -/
def waitForDisappear (path : String) (condition : Option (Nat → Bool)) (k : Nat) :
    List WaitOutcome → Except Exc (Option Bool)
  | [] => .ok none
  | o :: rest =>
    let cont : Except Exc (Option Bool) :=
      match condition with
      | none => waitForDisappear path condition (k + 1) rest
      | some c =>
        if c k then .ok (some false)
        else waitForDisappear path condition (k + 1) rest
    match o with
    | .slice => cont
    | .readResult code =>
      if code = .ZNONODE then .ok (some true)
      else if code ≠ .ZOK then .error (.keeper code path)
      else cont
    | .watchFired code typ =>
      if code = .ZNONODE then .ok (some true)
      else if code ≠ .ZOK then .error (.keeper code path)
      else if typ = .deleted then .ok (some true)
      else cont

/-!
Recursive deletion engine.  The engine environment gives, for each node of
the tree, the outcome of listing its children, the code multiImpl returns
for each submitted batch, and for each child the outcome of the
asynchronous per-child remove used by the fallback path and of the retry
remove after a ZNOTEMPTY.  Children are listed in the order the C++
consumes them (it pops from the back of the listing vector). -/

/-- Per-child engine data for the deletion engine. -/
structure ChildInfo where
  name : String
  asyncRemoveCode : KError
  retryRemoveCode : KError
  deriving DecidableEq, Repr

/-- Engine environment for a subtree rooted at one node. -/
inductive ZEnv where
  | mk (listCode : KError) (multiCode : Nat → KError)
       (multiResponses : Nat → List Response)
       (children : List (ChildInfo × ZEnv))

def ZEnv.listCode : ZEnv → KError
  | .mk c _ _ _ => c

def ZEnv.multiCode : ZEnv → Nat → KError
  | .mk _ m _ _ => m

def ZEnv.multiResponses : ZEnv → Nat → List Response
  | .mk _ _ m _ => m

def ZEnv.children : ZEnv → List (ChildInfo × ZEnv)
  | .mk _ _ _ cs => cs

/-- Names of the listed children. -/
def namesOf (children : List (ChildInfo × ZEnv)) : List String :=
  children.map (fun e => e.1.name)

/-- Modelled from the spec: MULTI_BATCH_SIZE is a constant declared in the
header, which is not part of this snippet; the spec says child removals
are batched into fixed-size groups whose size is a tunable constant.  The
repository uses 100; the claims depend only on the constant being
positive. -/
def MULTI_BATCH_SIZE : Nat := 100

/-- Full path of a child node (fs::path(path) / name). -/
def childPath (path name : String) : String := path ++ "/" ++ name

theorem list_sizeOf_pos {α : Type} [SizeOf α] (l : List α) : 0 < sizeOf l := by
  cases l <;> simp

theorem list_sizeOf_take_le {α : Type} [SizeOf α] (n : Nat) (l : List α) :
    sizeOf (l.take n) ≤ sizeOf l := by
  induction l generalizing n with
  | nil => simp
  | cons a t ih =>
    cases n with
    | zero => simp; have := list_sizeOf_pos t; omega
    | succ m => simp [List.take]; have := ih m; omega

theorem list_sizeOf_drop_le {α : Type} [SizeOf α] (n : Nat) (l : List α) :
    sizeOf (l.drop n) ≤ sizeOf l := by
  induction l generalizing n with
  | nil => simp
  | cons a t ih =>
    cases n with
    | zero => simp
    | succ m =>
      simp [List.drop]
      have := ih m
      have := list_sizeOf_pos t
      omega

theorem list_sizeOf_drop_lt {α : Type} [SizeOf α] (n : Nat) (hn : 0 < n) (a : α)
    (t : List α) : sizeOf ((a :: t).drop n) < sizeOf (a :: t) := by
  cases n with
  | zero => omega
  | succ m =>
    simp [List.drop]
    have := list_sizeOf_drop_le m t
    omega

theorem list_sizeOf_filter_le {α : Type} [SizeOf α] (p : α → Bool) (l : List α) :
    sizeOf (l.filter p) ≤ sizeOf l := by
  induction l with
  | nil => simp
  | cons a t ih =>
    rw [List.filter_cons]
    by_cases h : p a
    · simp [h]; omega
    · simp [h]; omega

mutual

/-- ZooKeeper::removeChildrenRecursive (source lines 687-702) over an
engine environment: list the children (getChildren raises on any non-OK
code, composing tryGetChildren with the static check), then, in batches of
MULTI_BATCH_SIZE, first recursively delete each child subtree (including
the subtree of a keep-matched child), collect a remove request for every
child except a keep-matched one, and submit the batch through multi.  The
C++ returns void; the observable effect embedded as the result is the list
of paths for which this activation submitted remove requests. -/
def removeChildrenRecursive (env : ZEnv) (path : String) (keep_child_node : String) :
    Except Exc (List String) :=
  match env with
  | .mk listCode multiCode multiResponses children =>
    match tryGetChildren path (.ready ⟨listCode, namesOf children⟩) with
    | .error e => .error e
    | .ok (code, _) =>
      if code ≠ .ZOK then .error (.keeper code path)
      else rcrLoop path keep_child_node multiCode multiResponses 0 children
termination_by 3 * sizeOf env
decreasing_by
  simp
  omega

/-- The while loop of removeChildrenRecursive: one iteration per batch of
MULTI_BATCH_SIZE children. -/
def rcrLoop (path keep_child_node : String) (multiCode : Nat → KError)
    (multiResponses : Nat → List Response) (batch_index : Nat) :
    List (ChildInfo × ZEnv) → Except Exc (List String)
  | [] => .ok []
  | e :: rest =>
    match rcrDescend path ((e :: rest).take MULTI_BATCH_SIZE) with
    | .error ex => .error ex
    | .ok _ =>
      let batch := ((e :: rest).take MULTI_BATCH_SIZE).filter
        (fun c => decide (keep_child_node = "" ∨ keep_child_node ≠ c.1.name))
      let ops := batch.map (fun c => makeRemoveRequest (childPath path c.1.name) (-1))
      match multi ops (.ready ⟨multiCode batch_index, multiResponses batch_index⟩) with
      | .error ex => .error ex
      | .ok _ =>
        match rcrLoop path keep_child_node multiCode multiResponses (batch_index + 1)
            ((e :: rest).drop MULTI_BATCH_SIZE) with
        | .error ex => .error ex
        | .ok tail => .ok (ops.map Request.getPath ++ tail)
termination_by children => 3 * sizeOf children + 2
decreasing_by
  all_goals first
    | (have h1 := list_sizeOf_take_le MULTI_BATCH_SIZE (e :: rest); omega)
    | (have h1 := list_sizeOf_drop_lt MULTI_BATCH_SIZE (by decide) e rest; omega)

/-- The depth-first descent over one batch (the recursive call at source
line 695, made for every child of the batch before its removal request is
collected). -/
def rcrDescend (path : String) : List (ChildInfo × ZEnv) → Except Exc Unit
  | [] => .ok ()
  | (ci, sub) :: rest =>
    match removeChildrenRecursive sub (childPath path ci.name) "" with
    | .error e => .error e
    | .ok _ => rcrDescend path rest
termination_by batch => 3 * sizeOf batch + 1
decreasing_by
  all_goals simp <;> omega

end

mutual

/-- ZooKeeper::tryRemoveChildrenRecursive (source lines 704-772) over an
engine environment: if the initial tryGetChildren returns a non-OK code
the function reports false without raising; otherwise the children are
processed in batches of MULTI_BATCH_SIZE, each batch first submitted as an
atomic multi (the fast path) and, when that fails, retried through
per-child asynchronous removes (the fallback), clearing the
removed_as_expected flag.  Result: the flag, and the list of child paths
this activation issued remove requests for. -/
def tryRemoveChildrenRecursive (env : ZEnv) (path : String) (probably_flat : Bool)
    (keep_child_node : String) : Except Exc (Bool × List String) :=
  match env with
  | .mk listCode multiCode multiResponses children =>
    match tryGetChildren path (.ready ⟨listCode, namesOf children⟩) with
    | .error e => .error e
    | .ok (code, _) =>
      if code ≠ .ZOK then .ok (false, [])
      else trcrLoop path probably_flat keep_child_node multiCode multiResponses 0 true children
termination_by 3 * sizeOf env
decreasing_by
  simp
  omega

/-- The while loop of tryRemoveChildrenRecursive: per batch, descend into
each child unless the caller asserted the tree is probably flat, build the
batch of remove requests (skipping a keep-matched child), try the atomic
multi, and on a non-OK code clear the flag and run the fallback. -/
def trcrLoop (path : String) (probably_flat : Bool) (keep_child_node : String)
    (multiCode : Nat → KError) (multiResponses : Nat → List Response)
    (batch_index : Nat) (removed_as_expected : Bool) :
    List (ChildInfo × ZEnv) → Except Exc (Bool × List String)
  | [] => .ok (removed_as_expected, [])
  | e :: rest =>
    match (if probably_flat then Except.ok () else
            trcrDescend path ((e :: rest).take MULTI_BATCH_SIZE)) with
    | .error ex => .error ex
    | .ok _ =>
      let batch := ((e :: rest).take MULTI_BATCH_SIZE).filter
        (fun c => decide (keep_child_node = "" ∨ keep_child_node ≠ c.1.name))
      let ops := batch.map (fun c => makeRemoveRequest (childPath path c.1.name) (-1))
      match tryMulti ops (.ready ⟨multiCode batch_index, multiResponses batch_index⟩) with
      | .error ex => .error ex
      | .ok (mcode, _) =>
        if mcode = .ZOK then
          match trcrLoop path probably_flat keep_child_node multiCode multiResponses
              (batch_index + 1) removed_as_expected ((e :: rest).drop MULTI_BATCH_SIZE) with
          | .error ex => .error ex
          | .ok (b, tail) =>
            .ok (b, batch.map (fun c => childPath path c.1.name) ++ tail)
        else
          match trcrFallback path probably_flat batch with
          | .error ex => .error ex
          | .ok _ =>
            match trcrLoop path probably_flat keep_child_node multiCode multiResponses
                (batch_index + 1) false ((e :: rest).drop MULTI_BATCH_SIZE) with
            | .error ex => .error ex
            | .ok (b, tail) =>
              .ok (b, batch.map (fun c => childPath path c.1.name) ++ tail)
termination_by children => 3 * sizeOf children + 2
decreasing_by
  all_goals first
    | (have h1 := list_sizeOf_take_le MULTI_BATCH_SIZE (e :: rest); omega)
    | (have h1 := list_sizeOf_drop_lt MULTI_BATCH_SIZE (by decide) e rest; omega)
    | (have h1 := list_sizeOf_filter_le
         (fun (c : ChildInfo × ZEnv) => decide (keep_child_node = "" ∨ keep_child_node ≠ c.1.name))
         ((e :: rest).take MULTI_BATCH_SIZE)
       have h2 := list_sizeOf_take_le MULTI_BATCH_SIZE (e :: rest)
       omega)

/-- The depth-first descent over one batch (the recursive call at source
line 724, made only when probably_flat is false; its boolean result is
discarded, only an exception propagates). -/
def trcrDescend (path : String) : List (ChildInfo × ZEnv) → Except Exc Unit
  | [] => .ok ()
  | (ci, sub) :: rest =>
    match tryRemoveChildrenRecursive sub (childPath path ci.name) false "" with
    | .error e => .error e
    | .ok _ => trcrDescend path rest
termination_by batch => 3 * sizeOf batch + 1
decreasing_by
  all_goals simp <;> omega

/-- The fallback loop (source lines 744-769): await the per-child
asynchronous removes in order; ZOK and ZNONODE are ignored; on ZNOTEMPTY,
when probably_flat skipped the descent, the child subtree is removed now
and the removal retried (a subsequent not-found is ignored by tryRemove);
any other code raises immediately with the child path. -/
def trcrFallback (path : String) (probably_flat : Bool) :
    List (ChildInfo × ZEnv) → Except Exc Unit
  | [] => .ok ()
  | (ci, sub) :: rest =>
    let cp := childPath path ci.name
    if ci.asyncRemoveCode = .ZOK ∨ ci.asyncRemoveCode = .ZNONODE then
      trcrFallback path probably_flat rest
    else if ci.asyncRemoveCode = .ZNOTEMPTY then
      if probably_flat then
        match tryRemoveChildrenRecursive sub cp false "" with
        | .error e => .error e
        | .ok _ =>
          match tryRemove cp (.ready ⟨ci.retryRemoveCode⟩) with
          | .error e => .error e
          | .ok _ => trcrFallback path probably_flat rest
      else trcrFallback path probably_flat rest
    else .error (.keeper ci.asyncRemoveCode cp)
termination_by batch => 3 * sizeOf batch + 1
decreasing_by
  all_goals simp <;> omega

end

/-- The sequence of result codes the loop of tryRemoveChildrenRecursive
observes from tryMulti, one entry per batch: a batch whose request list is
empty (every child in it keep-matched) yields ZOK without a round trip;
otherwise the code multiImpl returned for that batch.  Mirrors the batch
decomposition of trcrLoop. -/
def trcrBatchCodes (keep_child_node : String) (multiCode : Nat → KError)
    (batch_index : Nat) : List (ChildInfo × ZEnv) → List KError
  | [] => []
  | e :: rest =>
    let batch := ((e :: rest).take MULTI_BATCH_SIZE).filter
      (fun c => decide (keep_child_node = "" ∨ keep_child_node ≠ c.1.name))
    (if batch.isEmpty then KError.ZOK else multiCode batch_index) ::
      trcrBatchCodes keep_child_node multiCode (batch_index + 1)
        ((e :: rest).drop MULTI_BATCH_SIZE)
termination_by children => children.length
decreasing_by
  simp
  decide

/-!
Claim theorems. -/

/-- Claim C2: for every synchronous per-operation wrapper (create, remove,
exists, get, set, list/children, multi), if the asynchronous completion is
not ready within operation_timeout_ms, the wrapper finalizes the current
session and returns the dedicated code ZOPERATIONTIMEOUT rather than any
other code. -/
theorem timeout_finalizes_and_returns_optimeout :
    (∀ requests : List Request, requests ≠ [] →
      multiImpl requests .timedOut = .ok ⟨.ZOPERATIONTIMEOUT, [], true, true⟩)
    ∧ createImpl .timedOut = .ok ⟨.ZOPERATIONTIMEOUT, none, true⟩
    ∧ removeImpl .timedOut = .ok ⟨.ZOPERATIONTIMEOUT, none, true⟩
    ∧ existsImpl .timedOut = .ok ⟨.ZOPERATIONTIMEOUT, none, true⟩
    ∧ getImpl .timedOut = .ok ⟨.ZOPERATIONTIMEOUT, none, true⟩
    ∧ setImpl .timedOut = .ok ⟨.ZOPERATIONTIMEOUT, none, true⟩
    ∧ getChildrenImpl .timedOut = .ok ⟨.ZOPERATIONTIMEOUT, none, true⟩ := by
  refine ⟨?_, rfl, rfl, rfl, rfl, rfl, rfl⟩
  intro requests h
  simp [multiImpl, h]

/-- Witness for claim C2 at a concrete non-empty request list. -/
theorem timeout_finalizes_and_returns_optimeout_witness :
    multiImpl [makeRemoveRequest "/a" (-1)] .timedOut =
      .ok ⟨.ZOPERATIONTIMEOUT, [], true, true⟩ :=
  timeout_finalizes_and_returns_optimeout.1 [makeRemoveRequest "/a" (-1)] (by simp)

/-- Claim C3: each try variant returns the result code as a value exactly
when the code is OK or in that operation's documented non-fatal set
(create: ZNODEEXISTS, ZNONODE, ZNOCHILDRENFOREPHEMERALS; remove: ZNONODE,
ZBADVERSION, ZNOTEMPTY; set: ZNONODE, ZBADVERSION; exists/get/list:
ZNONODE), and raises a KeeperException carrying the path for every other
non-OK code; in particular tryRemove on a non-existent path returns
ZNONODE and never raises. -/
theorem try_variants_classification (path : String) :
    (∀ r : CreateResponse, tryCreate path (.ready r) =
      if r.error = .ZOK ∨ r.error = .ZNONODE ∨ r.error = .ZNODEEXISTS ∨
         r.error = .ZNOCHILDRENFOREPHEMERALS
      then .ok r.error else .error (.keeper r.error path))
    ∧ (∀ r : RemoveResponse, tryRemove path (.ready r) =
      if r.error = .ZOK ∨ r.error = .ZNONODE ∨ r.error = .ZBADVERSION ∨
         r.error = .ZNOTEMPTY
      then .ok r.error else .error (.keeper r.error path))
    ∧ (∀ r : SetResponse, trySet path (.ready r) =
      if r.error = .ZOK ∨ r.error = .ZNONODE ∨ r.error = .ZBADVERSION
      then .ok r.error else .error (.keeper r.error path))
    ∧ (∀ r : ExistsResponse, existsWatch path (.ready r) =
      if r.error = .ZOK ∨ r.error = .ZNONODE
      then .ok (r.error ≠ .ZNONODE) else .error (.keeper r.error path))
    ∧ (∀ r : GetResponse, tryGetWatch path (.ready r) =
      if r.error = .ZOK ∨ r.error = .ZNONODE
      then .ok (r.error = .ZOK, r.error) else .error (.keeper r.error path))
    ∧ (∀ r : ListResponse, tryGetChildren path (.ready r) =
      if r.error = .ZOK ∨ r.error = .ZNONODE
      then .ok (r.error, if r.error = .ZOK then r.names else [])
      else .error (.keeper r.error path))
    ∧ tryRemove path (.ready ⟨.ZNONODE⟩) = .ok .ZNONODE := by
  refine ⟨?_, ?_, ?_, ?_, ?_, ?_, rfl⟩ <;> intro r
  · by_cases h : r.error = .ZOK ∨ r.error = .ZNONODE ∨ r.error = .ZNODEEXISTS ∨
        r.error = .ZNOCHILDRENFOREPHEMERALS <;>
      simp [tryCreate, createImpl, h]
  · by_cases h : r.error = .ZOK ∨ r.error = .ZNONODE ∨ r.error = .ZBADVERSION ∨
        r.error = .ZNOTEMPTY <;>
      simp [tryRemove, removeImpl, h]
  · by_cases h : r.error = .ZOK ∨ r.error = .ZNONODE ∨ r.error = .ZBADVERSION <;>
      simp [trySet, setImpl, h]
  · by_cases h : r.error = .ZOK ∨ r.error = .ZNONODE <;>
      simp [existsWatch, existsImpl, h]
  · by_cases h : r.error = .ZOK ∨ r.error = .ZNONODE <;>
      simp [tryGetWatch, getImpl, h]
  · by_cases h : r.error = .ZOK ∨ r.error = .ZNONODE
    · by_cases hz : r.error = .ZOK <;> simp [tryGetChildren, getChildrenImpl, h, hz]
    · simp [tryGetChildren, getChildrenImpl, h]

/-- Claim C8: for an empty request list, the multi-operation entry points
return success with an empty response list and no exception, without
submitting any request to the protocol engine (the submitted flag of
multiImpl stays false for every engine outcome). -/
theorem empty_multi_short_circuits (out : EngineOutcome MultiResponse) :
    multiImpl [] out = .ok ⟨.ZOK, [], false, false⟩
    ∧ multi [] out = .ok []
    ∧ tryMulti [] out = .ok (.ZOK, []) :=
  ⟨rfl, rfl, rfl⟩

/-- Claim C10: tryMultiNoThrow never propagates a coordination exception:
for every request list it returns a code as a value, and when the
submission raises it returns the raised code, even for a fatal or
connection-class code; tryMulti, in contrast, raises for every non-OK
code that is not a user error. -/
theorem tryMultiNoThrow_never_raises (requests : List Request)
    (out : EngineOutcome MultiResponse) :
    (∃ c, tryMultiNoThrow requests out = .ok c)
    ∧ (∀ c, requests ≠ [] → tryMultiNoThrow requests (.thrown c) = .ok c)
    ∧ (∀ r : MultiResponse, requests ≠ [] → r.error ≠ .ZOK →
        isUserError r.error = false →
        tryMulti requests (.ready r) = .error (.keeper r.error "")) := by
  refine ⟨?_, ?_, ?_⟩
  · by_cases h : requests = []
    · exact ⟨.ZOK, by simp [tryMultiNoThrow, multiImpl, h]⟩
    · cases out with
      | thrown c => exact ⟨c, by simp [tryMultiNoThrow, multiImpl, h]⟩
      | timedOut => exact ⟨.ZOPERATIONTIMEOUT, by simp [tryMultiNoThrow, multiImpl, h]⟩
      | ready r => exact ⟨r.error, by simp [tryMultiNoThrow, multiImpl, h]⟩
  · intro c h
    simp [tryMultiNoThrow, multiImpl, h]
  · intro r h hne huser
    simp [tryMulti, multiImpl, h, hne, huser]

/-- Witness for claim C10: a session-expired submission exception is
converted to its code, and a connection-loss completion makes tryMulti
raise. -/
theorem tryMultiNoThrow_never_raises_witness :
    tryMultiNoThrow [makeRemoveRequest "/a" (-1)] (.thrown .ZSESSIONEXPIRED) =
      .ok .ZSESSIONEXPIRED
    ∧ tryMulti [makeRemoveRequest "/a" (-1)] (.ready ⟨.ZCONNECTIONLOSS, []⟩) =
      .error (.keeper .ZCONNECTIONLOSS "") :=
  ⟨(tryMultiNoThrow_never_raises [makeRemoveRequest "/a" (-1)]
      (.thrown .ZSESSIONEXPIRED)).2.1 .ZSESSIONEXPIRED (by simp),
   (tryMultiNoThrow_never_raises [makeRemoveRequest "/a" (-1)]
      (.ready ⟨.ZCONNECTIONLOSS, []⟩)).2.2 ⟨.ZCONNECTIONLOSS, []⟩ (by simp)
      (by simp) (by simp [isUserError])⟩

/-- Claim C5: for every configured host list, shuffleHosts returns a
permutation of the input hosts, and in the returned order a
higher-priority (numerically smaller) host never sorts after a
lower-priority one; among hosts of equal priority the order follows the
random tie-breaker values. -/
theorem shuffleHosts_perm_and_sorted (hosts : List String)
    (get_priority : Option (Nat → Nat)) (rand : Nat → Nat) :
    ((shuffleHosts hosts get_priority rand).map ShuffleHost.host).Perm hosts
    ∧ (shuffleHosts hosts get_priority rand).Pairwise
        (fun a b => a.priority < b.priority ∨
          (a.priority = b.priority ∧ a.random ≤ b.random)) := by
  constructor
  · have key := (List.mergeSort_perm (hosts.enum.map (fun ih =>
      ShuffleHost.mk ih.2 (hostPriority get_priority ih.1) (rand ih.1)))
      ShuffleHost.leB).map ShuffleHost.host
    have h3 : (hosts.enum.map (fun ih =>
        ShuffleHost.mk ih.2 (hostPriority get_priority ih.1) (rand ih.1))).map
        ShuffleHost.host = hosts := by
      rw [List.map_map]
      have : (ShuffleHost.host ∘ fun (ih : Nat × String) =>
          ShuffleHost.mk ih.2 (hostPriority get_priority ih.1) (rand ih.1)) = Prod.snd := rfl
      rw [this]
      exact List.enum_map_snd hosts
    unfold shuffleHosts
    rw [h3] at key
    exact key
  · have htrans : ∀ a b c : ShuffleHost, ShuffleHost.leB a b = true →
        ShuffleHost.leB b c = true → ShuffleHost.leB a c = true := by
      intro a b c hab hbc
      simp [ShuffleHost.leB] at *
      omega
    have htotal : ∀ a b : ShuffleHost,
        (ShuffleHost.leB a b || ShuffleHost.leB b a) = true := by
      intro a b
      simp [ShuffleHost.leB]
      omega
    exact (List.sorted_mergeSort htrans htotal _).imp
      (fun h => by simpa [ShuffleHost.leB] using h)

/-- Characterization of the host-resolution loop: the accumulated node
list collects exactly the resolved hosts (with the secure marker
stripped), and the DNS-error flag is set exactly when some host failed
with a DNS error. -/
theorem resolveLoop_spec (resolve : String → ResolveOutcome) :
    ∀ (l : List String) (acc : List (String × Bool) × Bool),
      (l.foldl (resolveStep resolve) acc).1 =
        acc.1 ++ l.filterMap (fun h => if resolve (stripSecure h) = .resolved
          then some (stripSecure h, h.startsWith "secure://") else none)
      ∧ (l.foldl (resolveStep resolve) acc).2 =
        (acc.2 || l.any (fun h => resolve (stripSecure h) = .dnsErr)) := by
  intro l
  induction l with
  | nil => intro acc; simp
  | cons a t ih =>
    intro acc
    rw [List.foldl_cons, List.filterMap_cons, List.any_cons]
    have hstep := ih (resolveStep resolve acc a)
    cases hres : resolve (stripSecure a) with
    | resolved =>
      rw [hstep.1, hstep.2]
      simp [resolveStep, hres]
    | hostNotFound =>
      rw [hstep.1, hstep.2]
      simp [resolveStep, hres]
    | dnsErr =>
      rw [hstep.1, hstep.2]
      simp [resolveStep, hres]

/-- Claim C7: per-host resolution failures are tolerated as long as at
least one host resolves; when no host resolves, initialization throws
ZCONNECTIONLOSS if at least one failure was a DNS-class error, and
ZBADARGUMENTS when all failures were host-not-found. -/
theorem init_resolution_classification (shuffled_hosts : List String)
    (resolve : String → ResolveOutcome) :
    ((∃ h ∈ shuffled_hosts, resolve (stripSecure h) = .resolved) →
      ∃ nodes, initNodes shuffled_hosts resolve = .ok nodes)
    ∧ ((∀ h ∈ shuffled_hosts, resolve (stripSecure h) ≠ .resolved) →
       (∃ h ∈ shuffled_hosts, resolve (stripSecure h) = .dnsErr) →
      initNodes shuffled_hosts resolve = .error (.keeper .ZCONNECTIONLOSS
        "Cannot resolve any of provided ZooKeeper hosts due to DNS error"))
    ∧ ((∀ h ∈ shuffled_hosts, resolve (stripSecure h) = .hostNotFound) →
      initNodes shuffled_hosts resolve = .error (.keeper .ZBADARGUMENTS
        "Cannot use any of provided ZooKeeper nodes")) := by
  have hspec := resolveLoop_spec resolve shuffled_hosts ([], false)
  refine ⟨?_, ?_, ?_⟩
  · rintro ⟨h, hmem, hres⟩
    unfold initNodes
    rw [if_neg]
    · exact ⟨_, rfl⟩
    · rw [hspec.1]
      simp only [List.nil_append, List.isEmpty_iff]
      intro hnil
      rw [List.filterMap_eq_nil_iff] at hnil
      have := hnil h hmem
      simp [hres] at this
  · intro hnone hdns
    unfold initNodes
    rw [if_pos, if_pos]
    · rw [hspec.2]
      simp only [Bool.false_or, List.any_eq_true]
      obtain ⟨h, hmem, hres⟩ := hdns
      exact ⟨h, hmem, by simp [hres]⟩
    · rw [hspec.1]
      simp only [List.nil_append, List.isEmpty_iff]
      rw [List.filterMap_eq_nil_iff]
      intro h hmem
      simp [hnone h hmem]
  · intro hall
    unfold initNodes
    rw [if_pos, if_neg]
    · rw [hspec.2]
      simp only [Bool.false_or, List.any_eq_true]
      rintro ⟨h, hmem, hres⟩
      rw [hall h hmem] at hres
      simp at hres
    · rw [hspec.1]
      simp only [List.nil_append, List.isEmpty_iff]
      rw [List.filterMap_eq_nil_iff]
      intro h hmem
      simp [hall h hmem]

/-- Witness for claim C7: a resolving host yields nodes; an all-DNS-error
list yields ZCONNECTIONLOSS; an all-not-found list yields ZBADARGUMENTS. -/
theorem init_resolution_classification_witness :
    (∃ nodes, initNodes ["a:2181"] (fun _ => .resolved) = .ok nodes)
    ∧ initNodes ["a:2181"] (fun _ => .dnsErr) = .error (.keeper .ZCONNECTIONLOSS
        "Cannot resolve any of provided ZooKeeper hosts due to DNS error")
    ∧ initNodes ["a:2181"] (fun _ => .hostNotFound) = .error (.keeper .ZBADARGUMENTS
        "Cannot use any of provided ZooKeeper nodes") :=
  ⟨(init_resolution_classification ["a:2181"] (fun _ => .resolved)).1
      ⟨"a:2181", by simp, rfl⟩,
   (init_resolution_classification ["a:2181"] (fun _ => .dnsErr)).2.1
      (by intro h hmem; simp) ⟨"a:2181", by simp, rfl⟩,
   (init_resolution_classification ["a:2181"] (fun _ => .hostNotFound)).2.2
      (by intro h hmem; rfl)⟩

/-- Claim C6 counterexample: with a poll condition that is constantly true
(hence never evaluates to false), a wait slice with no event makes
waitForDisappear return false.  The loop condition of the do-while is
"condition absent or condition() false", so the function returns false
when the condition evaluates to true, not false as claimed. -/
theorem waitForDisappear_condition_counterexample :
    waitForDisappear "/x" (some (fun _ => true)) 0 [.slice] = .ok (some false) := rfl

/-- Claim C6 (amended): waitForDisappear returns true when the data read
completes with ZNONODE or when a DELETED watch event is observed; it
raises a KeeperException carrying the path for any other non-zero error
code; and it returns false only when the caller-supplied poll condition
evaluates to true (the condition is a stop-waiting predicate, re-checked
after each bounded wait slice) before the node disappears. -/
theorem waitForDisappear_spec (path : String) (condition : Option (Nat → Bool)) (k : Nat) :
    (∀ rest, waitForDisappear path condition k (.readResult .ZNONODE :: rest) =
      .ok (some true))
    ∧ (∀ rest, waitForDisappear path condition k (.watchFired .ZOK .deleted :: rest) =
      .ok (some true))
    ∧ (∀ code rest, code ≠ .ZOK → code ≠ .ZNONODE →
        waitForDisappear path condition k (.readResult code :: rest) =
          .error (.keeper code path))
    ∧ (∀ code typ rest, code ≠ .ZOK → code ≠ .ZNONODE →
        waitForDisappear path condition k (.watchFired code typ :: rest) =
          .error (.keeper code path))
    ∧ (∀ trace, waitForDisappear path condition k trace = .ok (some false) →
        ∃ c j, condition = some c ∧ c j = true) := by
  refine ⟨?_, ?_, ?_, ?_, ?_⟩
  · intro rest
    simp [waitForDisappear]
  · intro rest
    simp [waitForDisappear]
  · intro code rest hok hnn
    simp [waitForDisappear, hok, hnn]
  · intro code typ rest hok hnn
    simp [waitForDisappear, hok, hnn]
  · intro trace
    induction trace generalizing k with
    | nil =>
      intro h
      simp [waitForDisappear] at h
    | cons o rest ih =>
      intro h
      have hcont : ∀ (hc : (match condition with
          | none => waitForDisappear path condition (k + 1) rest
          | some c =>
            if c k then Except.ok (some false)
            else waitForDisappear path condition (k + 1) rest) =
            Except.ok (some false)), ∃ c j, condition = some c ∧ c j = true := by
        intro hc
        cases condition with
        | none => exact ih (k + 1) hc
        | some c =>
          by_cases hck : c k
          · exact ⟨c, k, rfl, hck⟩
          · have hc2 : waitForDisappear path (some c) (k + 1) rest =
                Except.ok (some false) := by simpa [hck] using hc
            exact ih (k + 1) hc2
      cases o with
      | slice =>
        rw [waitForDisappear.eq_def] at h
        exact hcont h
      | readResult code =>
        rw [waitForDisappear.eq_def] at h
        by_cases h1 : code = .ZNONODE
        · simp [h1] at h
        · by_cases h2 : code = .ZOK
          · simp [h1, h2] at h
            exact hcont h
          · simp [h1, h2] at h
      | watchFired code typ =>
        rw [waitForDisappear.eq_def] at h
        by_cases h1 : code = .ZNONODE
        · simp [h1] at h
        · by_cases h2 : code = .ZOK
          · by_cases h3 : typ = .deleted
            · simp [h1, h2, h3] at h
            · simp [h1, h2, h3] at h
              exact hcont h
          · simp [h1, h2] at h

/-- Witness for claim C6 (amended): a connection-loss read raises with the
path, and the only way to obtain false goes through a true condition. -/
theorem waitForDisappear_spec_witness :
    waitForDisappear "/x" none 0 [.readResult .ZCONNECTIONLOSS] =
      .error (.keeper .ZCONNECTIONLOSS "/x")
    ∧ (∃ c j, (some (fun _ => true) : Option (Nat → Bool)) = some c ∧ c j = true) :=
  ⟨(waitForDisappear_spec "/x" none 0).2.2.1 .ZCONNECTIONLOSS [] (by decide) (by decide),
   (waitForDisappear_spec "/x" (some (fun _ => true)) 0).2.2.2.2 [.slice] rfl⟩

theorem user_error_ne_zok (c : KError) (h : isUserError c = true) : c ≠ .ZOK := by
  cases c <;> simp_all [isUserError]

theorem findIdx?_eq_some_of_first {α : Type} (p : α → Bool) (d : α) :
    ∀ (l : List α) (i s : Nat), i < l.length → p (l.getD i d) = true →
      (∀ j, j < i → p (l.getD j d) = false) → l.findIdx? p s = some (s + i) := by
  intro l
  induction l with
  | nil => intro i s hi; simp at hi
  | cons a t ih =>
    intro i s hi hp hfirst
    rw [List.findIdx?_cons]
    cases i with
    | zero =>
      simp only [List.getD_cons_zero] at hp
      rw [if_pos hp]
      simp
    | succ m =>
      have h0 := hfirst 0 (by omega)
      simp only [List.getD_cons_zero] at h0
      rw [if_neg (by simp [h0])]
      have hrec := ih m (s + 1) (by simp at hi; omega)
        (by simpa using hp)
        (fun j hj => by have := hfirst (j + 1) (by omega); simpa using this)
      rw [hrec]
      congr 1
      omega

theorem findIdx?_eq_none_of_all {α : Type} (p : α → Bool) :
    ∀ (l : List α) (s : Nat), (∀ a ∈ l, p a = false) → l.findIdx? p s = none := by
  intro l
  induction l with
  | nil => intro s _; rfl
  | cons a t ih =>
    intro s h
    rw [List.findIdx?_cons, if_neg (by simp [h a (by simp)])]
    exact ih (s + 1) (fun x hx => h x (by simp [hx]))

/-- Claim C1: a multi call that completes with a user-error top-level code
raises a KeeperMultiException whose failed-op index is the index of the
first non-OK response and whose message carries that sub-operation's path;
an empty response list, a response list with no non-OK entry, or a
consultation of getFailedOpIndex with a non-user-error code and no failed
response, each raise a fatal LOGICAL_ERROR (a DB::Exception, not a
transient Coordination exception). -/
theorem multi_user_error_diagnostics (code : KError) (requests : List Request)
    (responses : List Response) :
    (∀ index, requests ≠ [] → isUserError code = true →
      index < responses.length →
      (responses.getD index ⟨.ZOK⟩).error ≠ .ZOK →
      (∀ j, j < index → (responses.getD j ⟨.ZOK⟩).error = .ZOK) →
      multi requests (.ready ⟨code, responses⟩) =
        .error (.keeperMulti code index ((requests.getD index (.remove "" 0)).getPath)))
    ∧ (requests ≠ [] → isUserError code = true → responses = [] →
      multi requests (.ready ⟨code, responses⟩) =
        .error (.logicalError "Responses for multi transaction is empty"))
    ∧ (requests ≠ [] → isUserError code = true → responses ≠ [] →
      (∀ r ∈ responses, r.error = .ZOK) →
      multi requests (.ready ⟨code, responses⟩) =
        .error (.logicalError "There is no failed OpResult"))
    ∧ (isUserError code = false → responses ≠ [] →
      (∀ r ∈ responses, r.error = .ZOK) →
      KeeperMultiException.getFailedOpIndex code responses =
        .error (.logicalError
          "There are no failed OPs because the code is not a valid response code for that")) := by
  refine ⟨?_, ?_, ?_, ?_⟩
  · intro index hreq huser hlen hbad hfirst
    have hcode := user_error_ne_zok code huser
    have hfind : responses.findIdx? (fun r => !decide (r.error = KError.ZOK)) = some index := by
      have := findIdx?_eq_some_of_first (fun (r : Response) => !decide (r.error = KError.ZOK))
        ⟨.ZOK⟩ responses index 0 hlen (by simpa using hbad)
        (fun j hj => by simpa using hfirst j hj)
      simpa using this
    have hne : responses ≠ [] := by
      intro h
      rw [h] at hlen
      simp at hlen
    simp [multi, multiImpl, List.isEmpty_iff, hreq, KeeperMultiException.check, hcode,
      huser, KeeperMultiException.make, KeeperMultiException.getFailedOpIndex, hne, hfind]
  · intro hreq huser hresp
    have hcode := user_error_ne_zok code huser
    subst hresp
    simp [multi, multiImpl, List.isEmpty_iff, hreq, KeeperMultiException.check, hcode,
      huser, KeeperMultiException.make, KeeperMultiException.getFailedOpIndex]
  · intro hreq huser hne hall
    have hcode := user_error_ne_zok code huser
    have hfind : responses.findIdx? (fun r => !decide (r.error = KError.ZOK)) = none :=
      findIdx?_eq_none_of_all _ responses 0 (fun r hr => by simp [hall r hr])
    simp [multi, multiImpl, List.isEmpty_iff, hreq, KeeperMultiException.check, hcode,
      huser, KeeperMultiException.make, KeeperMultiException.getFailedOpIndex, hne, hfind]
  · intro huser hne hall
    have hfind : responses.findIdx? (fun r => !decide (r.error = KError.ZOK)) = none :=
      findIdx?_eq_none_of_all _ responses 0 (fun r hr => by simp [hall r hr])
    simp [KeeperMultiException.getFailedOpIndex, List.isEmpty_iff, hne, hfind, huser]

/-- Witness for claim C1: a batch of two creates where the second fails
with ZNODEEXISTS raises the structured exception naming index 1 and path
"/b"; with the same user-error code and all-OK responses a LOGICAL_ERROR
is raised; getFailedOpIndex consulted with a connection-loss code and an
all-OK response list is a LOGICAL_ERROR as well. -/
theorem multi_user_error_diagnostics_witness :
    multi [makeCreateRequest "/a" "" 0, makeCreateRequest "/b" "" 0]
      (.ready ⟨.ZNODEEXISTS, [⟨.ZOK⟩, ⟨.ZNODEEXISTS⟩]⟩) =
      .error (.keeperMulti .ZNODEEXISTS 1 "/b")
    ∧ multi [makeCreateRequest "/a" "" 0]
      (.ready ⟨.ZNODEEXISTS, []⟩) =
      .error (.logicalError "Responses for multi transaction is empty")
    ∧ multi [makeCreateRequest "/a" "" 0]
      (.ready ⟨.ZNODEEXISTS, [⟨.ZOK⟩]⟩) =
      .error (.logicalError "There is no failed OpResult")
    ∧ KeeperMultiException.getFailedOpIndex .ZCONNECTIONLOSS [⟨.ZOK⟩] =
      .error (.logicalError
        "There are no failed OPs because the code is not a valid response code for that") :=
  ⟨(multi_user_error_diagnostics .ZNODEEXISTS _ _).1 1 (by simp) rfl (by simp)
      (by decide) (by intro j hj; have hj0 : j = 0 := by omega
                      subst hj0; decide),
   (multi_user_error_diagnostics .ZNODEEXISTS _ _).2.1 (by simp) rfl rfl,
   (multi_user_error_diagnostics .ZNODEEXISTS _ _).2.2.1 (by simp) rfl (by simp)
      (by intro r hr; simp at hr; subst hr; rfl),
   (multi_user_error_diagnostics .ZCONNECTIONLOSS [] _).2.2.2 rfl (by simp)
      (by intro r hr; simp at hr; subst hr; rfl)⟩

theorem ops_isEmpty_iff_batch (path : String) (batch : List (ChildInfo × ZEnv)) :
    (batch.map (fun c => makeRemoveRequest (childPath path c.1.name) (-1))).isEmpty =
      batch.isEmpty := by
  cases batch <;> rfl

theorem tryMulti_ready_ok_code (reqs : List Request) (r : MultiResponse) (c : KError)
    (rs : List Response) (h : tryMulti reqs (.ready r) = .ok (c, rs)) :
    c = if reqs.isEmpty then .ZOK else r.error := by
  by_cases he : reqs.isEmpty
  · simp [tryMulti, multiImpl, he] at h
    simp [he, h.1]
  · simp only [tryMulti, multiImpl, he, Bool.false_eq_true, if_false] at h
    split at h
    · simp at h
    · simp only [Except.ok.injEq, Prod.mk.injEq] at h
      simp [he, h.1]

/-- Characterization of the loop of tryRemoveChildrenRecursive: when it
returns without raising, the returned flag is the incoming flag conjoined
with every batch code being ZOK, and the returned path list is exactly the
non-keep-matched children mapped to their full paths. -/
theorem trcrLoop_spec (path : String) (probably_flat : Bool) (keep_child_node : String)
    (mc : Nat → KError) (mr : Nat → List Response) :
    ∀ (n : Nat) (children : List (ChildInfo × ZEnv)), children.length ≤ n →
      ∀ (k : Nat) (flag b : Bool) (removed : List String),
        trcrLoop path probably_flat keep_child_node mc mr k flag children =
          .ok (b, removed) →
        b = (flag && (trcrBatchCodes keep_child_node mc k children).all
              (fun c => decide (c = .ZOK)))
        ∧ removed = (children.filter
            (fun c => decide (keep_child_node = "" ∨ keep_child_node ≠ c.1.name))).map
            (fun c => childPath path c.1.name) := by
  intro n
  induction n with
  | zero =>
    intro children hlen k flag b removed h
    have hnil : children = [] := List.eq_nil_of_length_eq_zero (by omega)
    subst hnil
    rw [trcrLoop] at h
    simp at h
    simp [trcrBatchCodes, h.1, h.2]
  | succ m ih =>
    intro children hlen k flag b removed h
    match children with
    | [] =>
      rw [trcrLoop] at h
      simp at h
      simp [trcrBatchCodes, h.1, h.2]
    | e :: rest =>
      rw [trcrLoop] at h
      cases hdesc : (if probably_flat then Except.ok () else
          trcrDescend path ((e :: rest).take MULTI_BATCH_SIZE)) with
      | error ex =>
        rw [hdesc] at h
        simp at h
      | ok u =>
        rw [hdesc] at h
        simp only [] at h
        cases hm : tryMulti
            ((((e :: rest).take MULTI_BATCH_SIZE).filter
              (fun c => decide (keep_child_node = "" ∨ keep_child_node ≠ c.1.name))).map
              (fun c => makeRemoveRequest (childPath path c.1.name) (-1)))
            (.ready ⟨mc k, mr k⟩) with
        | error ex =>
          rw [hm] at h
          simp at h
        | ok pr =>
          obtain ⟨mcode, rsp⟩ := pr
          rw [hm] at h
          simp only [] at h
          have hmcode := tryMulti_ready_ok_code _ _ _ _ hm
          rw [ops_isEmpty_iff_batch] at hmcode
          have hlen2 : ((e :: rest).drop MULTI_BATCH_SIZE).length ≤ m := by
            have hB : 0 < MULTI_BATCH_SIZE := by decide
            simp at hlen ⊢
            omega
          by_cases hz : mcode = .ZOK
          · rw [if_pos hz] at h
            cases hrec : trcrLoop path probably_flat keep_child_node mc mr (k + 1)
                flag ((e :: rest).drop MULTI_BATCH_SIZE) with
            | error ex =>
              rw [hrec] at h
              simp at h
            | ok qr =>
              obtain ⟨b2, tail⟩ := qr
              rw [hrec] at h
              simp at h
              obtain ⟨hb, hrem⟩ := h
              have hih := ih _ hlen2 (k + 1) flag b2 tail hrec
              constructor
              · rw [trcrBatchCodes]
                simp only [List.all_cons]
                have hhead : (if (((e :: rest).take MULTI_BATCH_SIZE).filter
                    (fun c => decide (keep_child_node = "" ∨ keep_child_node ≠ c.1.name))).isEmpty
                    then KError.ZOK else mc k) = .ZOK := by
                  by_cases hbe : (((e :: rest).take MULTI_BATCH_SIZE).filter
                      (fun c => decide (keep_child_node = "" ∨ keep_child_node ≠ c.1.name))).isEmpty
                  · rw [if_pos hbe]
                  · rw [if_neg hbe]
                    rw [hmcode, if_neg hbe] at hz
                    exact hz
                rw [hhead, ← hb, hih.1]
                simp
              · rw [← hrem, hih.2]
                conv_rhs => rw [← List.take_append_drop MULTI_BATCH_SIZE (e :: rest)]
                rw [List.filter_append, List.map_append]
                simp
          · rw [if_neg hz] at h
            cases hf : trcrFallback path probably_flat
                (((e :: rest).take MULTI_BATCH_SIZE).filter
                  (fun c => decide (keep_child_node = "" ∨ keep_child_node ≠ c.1.name))) with
            | error ex =>
              rw [hf] at h
              simp at h
            | ok u2 =>
              rw [hf] at h
              cases hrec : trcrLoop path probably_flat keep_child_node mc mr (k + 1)
                  false ((e :: rest).drop MULTI_BATCH_SIZE) with
              | error ex =>
                rw [hrec] at h
                simp at h
              | ok qr =>
                obtain ⟨b2, tail⟩ := qr
                rw [hrec] at h
                simp at h
                obtain ⟨hb, hrem⟩ := h
                have hih := ih _ hlen2 (k + 1) false b2 tail hrec
                constructor
                · rw [trcrBatchCodes]
                  simp only [List.all_cons]
                  have hhead : decide ((if (((e :: rest).take MULTI_BATCH_SIZE).filter
                      (fun c => decide (keep_child_node = "" ∨ keep_child_node ≠ c.1.name))).isEmpty
                      then KError.ZOK else mc k) = KError.ZOK) = false := by
                    by_cases hbe : (((e :: rest).take MULTI_BATCH_SIZE).filter
                        (fun c => decide (keep_child_node = "" ∨ keep_child_node ≠ c.1.name))).isEmpty
                    · rw [hmcode, if_pos hbe] at hz
                      simp at hz
                    · rw [if_neg hbe]
                      rw [hmcode, if_neg hbe] at hz
                      simp [hz]
                  rw [hhead, ← hb, hih.1]
                  simp
                · rw [← hrem, hih.2]
                  conv_rhs => rw [← List.take_append_drop MULTI_BATCH_SIZE (e :: rest)]
                  rw [List.filter_append, List.map_append]
                  simp

theorem tryGetChildren_ready_ok (path : String) (r : ListResponse) (c : KError)
    (ns : List String) (h : tryGetChildren path (.ready r) = .ok (c, ns)) :
    c = r.error := by
  simp only [tryGetChildren, getChildrenImpl] at h
  split at h
  · simp at h
  · simp only [Except.ok.injEq, Prod.mk.injEq] at h
    exact h.1.symm

theorem childPath_right_inj (path a b : String)
    (h : childPath path a = childPath path b) : a = b := by
  unfold childPath at h
  have h2 := congrArg String.data h
  rw [String.data_append, String.data_append, String.data_append,
    String.data_append] at h2
  exact String.ext (List.append_cancel_left h2)

theorem keep_not_in_filtered (path keep : String) (hkeep : keep ≠ "")
    (cs : List (ChildInfo × ZEnv)) :
    childPath path keep ∉ (cs.filter
      (fun c => decide (keep = "" ∨ keep ≠ c.1.name))).map
      (fun c => childPath path c.1.name)
    ∧ ∀ ci ∈ cs, ci.1.name ≠ keep →
      childPath path ci.1.name ∈ (cs.filter
        (fun c => decide (keep = "" ∨ keep ≠ c.1.name))).map
        (fun c => childPath path c.1.name) := by
  constructor
  · intro hmem
    rw [List.mem_map] at hmem
    obtain ⟨ci, hcif, heq⟩ := hmem
    rw [List.mem_filter] at hcif
    have hname := childPath_right_inj path _ _ heq
    rcases (by simpa using hcif.2 : keep = "" ∨ ¬ keep = ci.1.name) with hcase | hcase
    · exact hkeep hcase
    · exact hcase hname.symm
  · intro ci hmem hne
    rw [List.mem_map]
    refine ⟨ci, List.mem_filter.2 ⟨hmem, ?_⟩, rfl⟩
    simp [Ne.symm hne]

/-- Characterization of the loop of removeChildrenRecursive: when it
returns without raising, the returned path list is exactly the
non-keep-matched children mapped to their full paths. -/
theorem rcrLoop_removed (path keep_child_node : String) (mc : Nat → KError)
    (mr : Nat → List Response) :
    ∀ (n : Nat) (children : List (ChildInfo × ZEnv)), children.length ≤ n →
      ∀ (k : Nat) (removed : List String),
        rcrLoop path keep_child_node mc mr k children = .ok removed →
        removed = (children.filter
            (fun c => decide (keep_child_node = "" ∨ keep_child_node ≠ c.1.name))).map
            (fun c => childPath path c.1.name) := by
  intro n
  induction n with
  | zero =>
    intro children hlen k removed h
    have hnil : children = [] := List.eq_nil_of_length_eq_zero (by omega)
    subst hnil
    rw [rcrLoop] at h
    simp at h
    simp [h]
  | succ m ih =>
    intro children hlen k removed h
    match children with
    | [] =>
      rw [rcrLoop] at h
      simp at h
      simp [h]
    | e :: rest =>
      rw [rcrLoop] at h
      cases hdesc : rcrDescend path ((e :: rest).take MULTI_BATCH_SIZE) with
      | error ex =>
        rw [hdesc] at h
        simp at h
      | ok u =>
        rw [hdesc] at h
        simp only [] at h
        cases hmu : multi
            ((((e :: rest).take MULTI_BATCH_SIZE).filter
              (fun c => decide (keep_child_node = "" ∨ keep_child_node ≠ c.1.name))).map
              (fun c => makeRemoveRequest (childPath path c.1.name) (-1)))
            (.ready ⟨mc k, mr k⟩) with
        | error ex =>
          rw [hmu] at h
          simp at h
        | ok rs =>
          rw [hmu] at h
          simp only [] at h
          cases hrec : rcrLoop path keep_child_node mc mr (k + 1)
              ((e :: rest).drop MULTI_BATCH_SIZE) with
          | error ex =>
            rw [hrec] at h
            simp at h
          | ok tail =>
            rw [hrec] at h
            simp at h
            have hlen2 : ((e :: rest).drop MULTI_BATCH_SIZE).length ≤ m := by
              have hB : 0 < MULTI_BATCH_SIZE := by decide
              simp at hlen ⊢
              omega
            have hih := ih _ hlen2 (k + 1) tail hrec
            rw [← h, hih]
            conv_rhs => rw [← List.take_append_drop MULTI_BATCH_SIZE (e :: rest)]
            rw [List.filter_append, List.map_append]
            simp [List.map_map, Function.comp, makeRemoveRequest, Request.getPath]

/-- Claim C4: tryRemoveChildrenRecursive returns false without raising
when the initial child listing returns a non-OK code (the root already
gone), and otherwise its returned flag is true exactly when every batch of
child removals succeeded through the atomic multi fast path: whenever any
per-child fallback path is taken, the flag is false even if every node was
eventually removed. -/
theorem tryRemoveChildrenRecursive_flag (env : ZEnv) (path : String)
    (probably_flat : Bool) (keep_child_node : String) :
    (∀ c ns, tryGetChildren path (.ready ⟨env.listCode, namesOf env.children⟩) =
        .ok (c, ns) → c ≠ .ZOK →
      tryRemoveChildrenRecursive env path probably_flat keep_child_node = .ok (false, []))
    ∧ (∀ b removed,
        tryRemoveChildrenRecursive env path probably_flat keep_child_node =
          .ok (b, removed) →
        b = (decide (env.listCode = .ZOK) &&
          (trcrBatchCodes keep_child_node env.multiCode 0 env.children).all
            (fun c => decide (c = .ZOK)))) := by
  obtain ⟨lc, mc, mr, cs⟩ := env
  simp only [ZEnv.listCode, ZEnv.children, ZEnv.multiCode]
  constructor
  · intro c ns hlist hc
    rw [tryRemoveChildrenRecursive, hlist]
    simp [hc]
  · intro b removed h
    rw [tryRemoveChildrenRecursive] at h
    cases hlist : tryGetChildren path (.ready ⟨lc, namesOf cs⟩) with
    | error ex =>
      rw [hlist] at h
      simp at h
    | ok pr =>
      obtain ⟨c, ns⟩ := pr
      have hceq := tryGetChildren_ready_ok path _ c ns hlist
      simp only [ListResponse.error] at hceq
      rw [hlist] at h
      simp only [] at h
      by_cases hc : c = .ZOK
      · rw [if_neg (by simp [hc])] at h
        have := (trcrLoop_spec path probably_flat keep_child_node mc mr cs.length cs
          (le_refl _) 0 true b removed h).1
        rw [this]
        have hlz : lc = .ZOK := by rw [← hceq]; exact hc
        simp [hlz]
      · rw [if_pos (by simp [hc])] at h
        simp at h
        have hlz : ¬ lc = .ZOK := by rw [← hceq]; exact hc
        simp [h.1, hlz]

/-- Witness for claim C4: on an environment whose listing reports ZNONODE
the function returns false without raising, and the flag equation holds on
that run. -/
theorem tryRemoveChildrenRecursive_flag_witness :
    tryRemoveChildrenRecursive (ZEnv.mk .ZNONODE (fun _ => .ZOK) (fun _ => []) [])
      "/r" false "" = .ok (false, [])
    ∧ false = (decide ((ZEnv.mk .ZNONODE (fun _ => .ZOK) (fun _ => []) []).listCode
          = KError.ZOK) &&
        (trcrBatchCodes "" (ZEnv.mk .ZNONODE (fun _ => .ZOK) (fun _ => []) []).multiCode 0
          (ZEnv.mk .ZNONODE (fun _ => .ZOK) (fun _ => []) []).children).all
          (fun c => decide (c = .ZOK))) := by
  have h1 := (tryRemoveChildrenRecursive_flag
    (ZEnv.mk .ZNONODE (fun _ => .ZOK) (fun _ => []) []) "/r" false "").1 .ZNONODE []
    rfl (by decide)
  exact ⟨h1, (tryRemoveChildrenRecursive_flag
    (ZEnv.mk .ZNONODE (fun _ => .ZOK) (fun _ => []) []) "/r" false "").2 false [] h1⟩

/-- Claim C9: in recursive subtree deletion, a child whose name matches
the keep-node name is never the target of a remove request, while every
other listed child is; this holds for removeChildrenRecursive and for
tryRemoveChildrenRecursive (for the latter, the inclusion of the other
children is stated for runs whose initial listing succeeded). -/
theorem keep_child_node_skipped (env : ZEnv) (path keep_child_node : String)
    (hkeep : keep_child_node ≠ "") :
    (∀ removed, removeChildrenRecursive env path keep_child_node = .ok removed →
      childPath path keep_child_node ∉ removed ∧
      ∀ ci ∈ env.children, ci.1.name ≠ keep_child_node →
        childPath path ci.1.name ∈ removed)
    ∧ (∀ probably_flat b removed,
        tryRemoveChildrenRecursive env path probably_flat keep_child_node =
          .ok (b, removed) →
        childPath path keep_child_node ∉ removed ∧
        (env.listCode = .ZOK →
          ∀ ci ∈ env.children, ci.1.name ≠ keep_child_node →
            childPath path ci.1.name ∈ removed)) := by
  obtain ⟨lc, mc, mr, cs⟩ := env
  simp only [ZEnv.listCode, ZEnv.children]
  constructor
  · intro removed h
    rw [removeChildrenRecursive] at h
    cases hlist : tryGetChildren path (.ready ⟨lc, namesOf cs⟩) with
    | error ex =>
      rw [hlist] at h
      simp at h
    | ok pr =>
      obtain ⟨c, ns⟩ := pr
      rw [hlist] at h
      simp only [] at h
      by_cases hc : c = .ZOK
      · rw [if_neg (by simp [hc])] at h
        have hrem := rcrLoop_removed path keep_child_node mc mr cs.length cs
          (le_refl _) 0 removed h
        rw [hrem]
        have hk := keep_not_in_filtered path keep_child_node hkeep cs
        exact ⟨hk.1, hk.2⟩
      · rw [if_pos (by simp [hc])] at h
        simp at h
  · intro probably_flat b removed h
    rw [tryRemoveChildrenRecursive] at h
    cases hlist : tryGetChildren path (.ready ⟨lc, namesOf cs⟩) with
    | error ex =>
      rw [hlist] at h
      simp at h
    | ok pr =>
      obtain ⟨c, ns⟩ := pr
      have hceq := tryGetChildren_ready_ok path _ c ns hlist
      simp only [ListResponse.error] at hceq
      rw [hlist] at h
      simp only [] at h
      by_cases hc : c = .ZOK
      · rw [if_neg (by simp [hc])] at h
        have hrem := (trcrLoop_spec path probably_flat keep_child_node mc mr cs.length
          cs (le_refl _) 0 true b removed h).2
        rw [hrem]
        have hk := keep_not_in_filtered path keep_child_node hkeep cs
        exact ⟨hk.1, fun _ => hk.2⟩
      · rw [if_pos (by simp [hc])] at h
        simp at h
        constructor
        · rw [h.2]
          simp
        · intro hlz
          rw [← hceq] at hlz
          exact absurd hlz hc

/-- Witness for claim C9: on an environment listing children "s" (the keep
node) and "a", removeChildrenRecursive issues a remove request exactly for
the path of "a"; tryRemoveChildrenRecursive on an already-gone root issues
none, and in particular none for the keep node. -/
theorem keep_child_node_skipped_witness :
    childPath "/r" "s" ∉ ["/r/a"] ∧ childPath "/r" "a" ∈ ["/r/a"]
    ∧ childPath "/r" "s" ∉ ([] : List String) := by
  have hleaf : ∀ (p k : String),
      removeChildrenRecursive (ZEnv.mk .ZOK (fun _ => .ZOK) (fun _ => []) []) p k = .ok [] := by
    intro p k
    rw [removeChildrenRecursive,
      show tryGetChildren p (.ready ⟨.ZOK, namesOf ([] : List (ChildInfo × ZEnv))⟩) =
        .ok (.ZOK, []) from rfl]
    simp only []
    rw [if_neg (by simp), rcrLoop]
  have hdesc : rcrDescend "/r" ([(⟨"s", .ZOK, .ZOK⟩, ZEnv.mk .ZOK (fun _ => .ZOK) (fun _ => []) []), (⟨"a", .ZOK, .ZOK⟩, ZEnv.mk .ZOK (fun _ => .ZOK) (fun _ => []) [])]) = .ok () := by
    rw [rcrDescend, hleaf]
    simp only []
    rw [rcrDescend, hleaf]
    simp only []
    rw [rcrDescend]
  have hnil : rcrLoop "/r" "s" (fun _ => .ZOK) (fun _ => ([] : List Response)) 1 [] =
      .ok [] := by
    rw [rcrLoop]
  have heval : removeChildrenRecursive
      (ZEnv.mk .ZOK (fun _ => .ZOK) (fun _ => []) ([(⟨"s", .ZOK, .ZOK⟩, ZEnv.mk .ZOK (fun _ => .ZOK) (fun _ => []) []), (⟨"a", .ZOK, .ZOK⟩, ZEnv.mk .ZOK (fun _ => .ZOK) (fun _ => []) [])])) "/r" "s" = .ok ["/r/a"] := by
    rw [removeChildrenRecursive,
      show tryGetChildren "/r" (.ready ⟨.ZOK, namesOf ([(⟨"s", .ZOK, .ZOK⟩, ZEnv.mk .ZOK (fun _ => .ZOK) (fun _ => []) []), (⟨"a", .ZOK, .ZOK⟩, ZEnv.mk .ZOK (fun _ => .ZOK) (fun _ => []) [])])⟩) =
        .ok (.ZOK, ["s", "a"]) from rfl]
    simp only []
    rw [if_neg (by simp), rcrLoop,
      show (([(⟨"s", .ZOK, .ZOK⟩, ZEnv.mk .ZOK (fun _ => .ZOK) (fun _ => []) []), (⟨"a", .ZOK, .ZOK⟩, ZEnv.mk .ZOK (fun _ => .ZOK) (fun _ => []) [])] : List (ChildInfo × ZEnv))).take MULTI_BATCH_SIZE =
        (([(⟨"s", .ZOK, .ZOK⟩, ZEnv.mk .ZOK (fun _ => .ZOK) (fun _ => []) []), (⟨"a", .ZOK, .ZOK⟩, ZEnv.mk .ZOK (fun _ => .ZOK) (fun _ => []) [])] : List (ChildInfo × ZEnv))) from rfl,
      show (([(⟨"s", .ZOK, .ZOK⟩, ZEnv.mk .ZOK (fun _ => .ZOK) (fun _ => []) []), (⟨"a", .ZOK, .ZOK⟩, ZEnv.mk .ZOK (fun _ => .ZOK) (fun _ => []) [])] : List (ChildInfo × ZEnv))).drop MULTI_BATCH_SIZE = [] from rfl,
      hdesc]
    simp only []
    rw [hnil]
    rfl
  have h1 := (keep_child_node_skipped
    (ZEnv.mk .ZOK (fun _ => .ZOK) (fun _ => []) ([(⟨"s", .ZOK, .ZOK⟩, ZEnv.mk .ZOK (fun _ => .ZOK) (fun _ => []) []), (⟨"a", .ZOK, .ZOK⟩, ZEnv.mk .ZOK (fun _ => .ZOK) (fun _ => []) [])])) "/r" "s" (by decide)).1
    ["/r/a"] heval
  have htr : tryRemoveChildrenRecursive
      (ZEnv.mk .ZNONODE (fun _ => .ZOK) (fun _ => []) []) "/r" true "s" =
      .ok (false, []) := by
    rw [tryRemoveChildrenRecursive,
      show tryGetChildren "/r" (.ready ⟨.ZNONODE, namesOf ([] : List (ChildInfo × ZEnv))⟩) =
        .ok (.ZNONODE, []) from rfl]
    simp only []
    rw [if_pos (by simp)]
  have h2 := (keep_child_node_skipped
    (ZEnv.mk .ZNONODE (fun _ => .ZOK) (fun _ => []) []) "/r" "s" (by decide)).2 true
    false [] htr
  refine ⟨h1.1, ?_, h2.1⟩
  exact h1.2 (⟨"a", .ZOK, .ZOK⟩, ZEnv.mk .ZOK (fun _ => .ZOK) (fun _ => []) []) (by simp [ZEnv.children]) (by decide)

end ZK
